import Mathlib

/-!
Verification development for the arduino-car firmware.

The firmware receives natural-language commands over MQTT, routes them
through an iterative planning loop backed by a remote reasoning service,
and executes tool calls (motor movement, sonar measurement, MQTT status
messages).  This file gives a shallow embedding of the planning loop, the
response parser, the goal evaluator, the sonar-averaging tool, the
movement tool, the MQTT callback and the rate-limited request wrapper,
and proves the behavioural properties stated about them.

Modelling conventions:
* Arduino `String` values are embedded as `List Char`; the helper
  functions below mirror the exact semantics of the Arduino methods the
  firmware uses (`indexOf`, `substring`, `trim`, `toLowerCase`, `toInt`).
* External collaborators (the ArduinoJson deserializer, the reasoning
  service, the motors, the sonar, the clock, MQTT transport) are
  parameters of the embedded functions; real-world side effects are
  returned as explicit traces.
* `float` confidences are embedded as `Rat`; every comparison performed
  by the firmware (0.89 / 0.9 / 0.91 against the 0.9 gate) has the same
  result for IEEE floats and for rationals, since the values compared
  are at least 0.01 apart while single-precision error is below 1e-6.
* C integer arithmetic appears only on values where all division
  conventions coincide (non-negative operands); `toInt` is embedded as
  unbounded `Int` (no firmware path in the claims overflows 32 bits).
-/

/-- Whitespace predicate used by Arduino `String.trim` (C `isspace`). -/
def isSpaceChar (c : Char) : Bool :=
  c = ' ' || c = '\t' || c = '\n' || c = '\x0b' || c = '\x0c' || c = '\r'

/-- Digit predicate written exactly as the firmware writes it:
`c >= '0' && c <= '9'`. -/
def isDigitChar (c : Char) : Bool :=
  decide ('0' ≤ c) && decide (c ≤ '9')

/-- Arduino `String.toLowerCase` (in-place lowering, modelled as a map). -/
def lowerChars (s : List Char) : List Char :=
  s.map Char.toLower

/-- Arduino `String.trim`: strip leading and trailing whitespace. -/
def trimChars (s : List Char) : List Char :=
  ((s.dropWhile isSpaceChar).reverse.dropWhile isSpaceChar).reverse

/-- First index at which `needle` occurs in `hay`, if any.  Arduino
`String.indexOf` returns -1 when absent; `none` plays the role of -1. -/
def indexOfChars (hay needle : List Char) : Option Nat :=
  if needle.isPrefixOf hay then some 0
  else
    match hay with
    | [] => none
    | _ :: t => (indexOfChars t needle).map (· + 1)

/-- Containment test derived from `indexOfChars` (used to state that a
log line occurs inside a results transcript). -/
def occursInChars (hay needle : List Char) : Bool :=
  (indexOfChars hay needle).isSome

/-- Arduino `String.substring(left, right)`: the half-open slice, with
the argument swap Arduino performs when `left > right`. -/
def substringChars (s : List Char) (left right : Nat) : List Char :=
  (s.drop (min left right)).take (max left right - min left right)

/-- Decimal value of a digit string (most significant first). -/
def digitsVal (s : List Char) : Int :=
  s.foldl (fun acc c => acc * 10 + (Int.ofNat c.toNat - 48)) 0

/-- Arduino `String.toInt` (C `atol`): skip leading whitespace, accept an
optional sign, read the maximal digit prefix, yield 0 when no digits. -/
def atoiChars (s : List Char) : Int :=
  match s.dropWhile isSpaceChar with
  | '-' :: rest => - digitsVal (rest.takeWhile isDigitChar)
  | '+' :: rest => digitsVal (rest.takeWhile isDigitChar)
  | rest => digitsVal (rest.takeWhile isDigitChar)

/-- The first maximal digit run in `s`, if any.  This is the value the
firmware's scan loops extract: skip to the first digit, then take the
run of digits, stopping there (`break`). -/
def firstDigitRun (s : List Char) : Option (List Char) :=
  match (s.dropWhile (fun c => !isDigitChar c)).takeWhile isDigitChar with
  | [] => none
  | run => some run

/-- Decimal rendering of a natural number, as `String(n)` produces. -/
def natToChars (n : Nat) : List Char :=
  (toString n).toList

/-- Decimal rendering of an integer, as `String(int)` produces. -/
def intToChars (i : Int) : List Char :=
  (toString i).toList

/-- Minimal JSON value model for what ArduinoJson documents hold in the
firmware paths: null (also the result of a failed lookup), booleans,
numbers, strings, arrays, objects. -/
inductive Json where
  | null
  | bool (b : Bool)
  | num (q : Rat)
  | str (s : List Char)
  | arr (xs : List Json)
  | obj (fields : List (List Char × Json))

/-- ArduinoJson `doc[key]`: object member lookup, null on a miss or on a
non-object (matching the null JsonVariant ArduinoJson yields). -/
def jKey (j : Json) (k : List Char) : Json :=
  match j with
  | Json.obj fields =>
      match fields.find? (fun kv => kv.1 == k) with
      | some kv => kv.2
      | none => Json.null
  | _ => Json.null

/-- ArduinoJson `doc.containsKey(key)`. -/
def jContainsKey (j : Json) (k : List Char) : Bool :=
  match j with
  | Json.obj fields => fields.any (fun kv => kv.1 == k)
  | _ => false

/-- ArduinoJson `arr[i]`: array indexing, null out of range or on a
non-array. -/
def jIdx (j : Json) (n : Nat) : Json :=
  match j with
  | Json.arr xs => xs.getD n Json.null
  | _ => Json.null

/-- ArduinoJson `as<JsonArray>` element list (empty on a non-array). -/
def jArrElems (j : Json) : List Json :=
  match j with
  | Json.arr xs => xs
  | _ => []

/-- ArduinoJson `as<String>` on the values the firmware reads (strings);
other variants are modelled as the empty string. -/
def jAsString (j : Json) : List Char :=
  match j with
  | Json.str s => s
  | _ => []

/-- ArduinoJson `as<bool>`: booleans directly, numbers by non-zero test,
everything else false. -/
def jAsBool (j : Json) : Bool :=
  match j with
  | Json.bool b => b
  | Json.num q => decide (q ≠ 0)
  | _ => false

/-- ArduinoJson `as<float>`: numbers directly, booleans as 0/1,
everything else 0. -/
def jAsRat (j : Json) : Rat :=
  match j with
  | Json.num q => q
  | Json.bool b => if b then 1 else 0
  | _ => 0

/-- ArduinoJson `variant == "literal"`: true exactly when the variant is
a string with that content. -/
def jsonEqStr (j : Json) (s : List Char) : Bool :=
  match j with
  | Json.str t => t == s
  | _ => false

/-- One tool call extracted from a reasoning response
(`struct ToolCall`). -/
structure ToolCall where
  tool : List Char
  params : List Char
  confidence : Rat
  isValid : Bool
deriving DecidableEq

/-- One parsed planning decision (`struct PlanningDecision`); the
firmware's `numToolCalls` is `toolCalls.length`. -/
structure PlanningDecision where
  toolCalls : List ToolCall
  shouldContinue : Bool
  objectiveComplete : Bool
  reasoning : List Char
  nextContext : List Char
deriving DecidableEq

/-- The mutable planning-session state (`struct PlanningSession`). -/
structure PlanningSession where
  objective : List Char
  currentContext : List Char
  executionHistory : List Char
  iterationCount : Nat
  isComplete : Bool
  finalResult : List Char
  startTime : Nat
  lastIterationTime : Nat
deriving DecidableEq

/-- Validity test for one raw sonar sample, written exactly as the
firmware writes it: `reading > 0 && reading <= 400`. -/
def sonarValid (reading : Int) : Bool :=
  decide (0 < reading) && decide (reading ≤ 400)

/-- The sampling loop of `getSonarDistance` over the given index list
(the firmware uses indices 0..4).  Returns the list of valid readings in
order together with the MQTT status messages the loop publishes: one
reading line per sample, plus a skip line after each invalid sample.
Serial-only logging is not modelled. -/
def sonarReadAux (pings : Nat → Int) : List Nat → List Int × List (List Char)
  | [] => ([], [])
  | i :: rest =>
      let reading := pings i
      let readMsg := ("Sonar reading ").toList ++ natToChars (i + 1) ++ (": ").toList
        ++ intToChars reading ++ (" cm").toList
      let r := sonarReadAux pings rest
      if sonarValid reading then
        (reading :: r.1, readMsg :: r.2)
      else
        (r.1, readMsg :: (("Invalid sonar reading ").toList ++ natToChars (i + 1)
          ++ (": ").toList ++ intToChars reading ++ (" cm (skipped)").toList) :: r.2)

/-- `getSonarDistance` from robot_tools.ino: take 5 raw samples from the
sonar (modelled as the external function `pings`), keep those in
(0, 400], and report either the explicit out-of-range string or the
integer mean of the valid samples.  The result is the returned string
paired with the MQTT messages published along the way. -/
def getSonarDistance (pings : Nat → Int) : List Char × List (List Char) :=
  let startMsg := ("Starting sonar distance measurement...").toList
  let valid := (sonarReadAux pings (List.range 5)).1
  let readMsgs := (sonarReadAux pings (List.range 5)).2
  let completeMsg := ("Sonar measurement complete: ").toList
    ++ natToChars valid.length ++ ("/5 valid readings").toList
  if valid.length = 0 then
    (("Distance: Out of range (>400cm or no echo)").toList,
     startMsg :: readMsgs ++ [completeMsg,
       ("Sonar result: Out of range (>400cm or no echo)").toList])
  else
    let total := valid.foldl (fun a b => a + b) 0
    let averageDistance := total / (valid.length : Int)
    (("Distance: ").toList ++ intToChars averageDistance
       ++ (" cm (avg of ").toList ++ natToChars valid.length ++ (" readings)").toList,
     startMsg :: readMsgs ++ [completeMsg,
       ("Sonar distance: ").toList ++ intToChars averageDistance
         ++ (" cm (avg of ").toList ++ natToChars valid.length ++ (" readings)").toList])

/-- One motor actuation performed by the movement helpers
(`stopWheels`, `goForward(ms)`, `goBackward(ms)`, `turnLeft(ms)`,
`turnRight(ms)`); the degree variants call the millisecond variants with
`600 * (degrees / 90)`. -/
inductive Actuation where
  | stopAll
  | forward (ms : Int)
  | backward (ms : Int)
  | leftTurn (ms : Int)
  | rightTurn (ms : Int)
deriving DecidableEq

/-- Split at the first space, as `moveCar` does with `indexOf(' ')` and
two `substring` calls; with no space the whole string is the command and
the value is empty. -/
def splitAtFirstSpace (s : List Char) : List Char × List Char :=
  match indexOfChars s [' '] with
  | some i => (s.take i, s.drop (i + 1))
  | none => (s, [])

/-- `moveCar` from robot_tools.ino: parse `"direction value"`, validate,
and actuate.  Returns the result string and the list of actuations
performed (empty on every validation error).  The optional MQTT echo of
the result string on topic `car` is not modelled. -/
def moveCar (params : List Char) : List Char × List Actuation :=
  let p := trimChars params
  if p = [] then
    (("Error: No movement command provided. Use: forward/backward/left/right/stop + value").toList, [])
  else
    let cv := splitAtFirstSpace p
    let command := lowerChars cv.1
    let valueStr := cv.2
    if command = ("stop").toList then
      (("Car stopped").toList, [Actuation.stopAll])
    else if command = ("forward").toList then
      if valueStr = [] then
        (("Error: Forward command requires duration in milliseconds").toList, [])
      else
        let duration := atoiChars valueStr
        if duration ≤ 0 then (("Error: Duration must be positive").toList, [])
        else (("Car moved forward for ").toList ++ intToChars duration ++ ("ms").toList,
              [Actuation.forward duration])
    else if command = ("backward").toList then
      if valueStr = [] then
        (("Error: Backward command requires duration in milliseconds").toList, [])
      else
        let duration := atoiChars valueStr
        if duration ≤ 0 then (("Error: Duration must be positive").toList, [])
        else (("Car moved backward for ").toList ++ intToChars duration ++ ("ms").toList,
              [Actuation.backward duration])
    else if command = ("left").toList then
      if valueStr = [] then
        (("Error: Left command requires degrees or duration").toList, [])
      else
        let v := atoiChars valueStr
        if v ≤ 0 then (("Error: Value must be positive").toList, [])
        else if v = 90 ∨ v = 180 ∨ v = 270 ∨ v = 360 then
          (("Car turned left ").toList ++ intToChars v ++ (" degrees").toList,
           [Actuation.leftTurn (600 * (v / 90))])
        else
          (("Car turned left for ").toList ++ intToChars v ++ ("ms").toList,
           [Actuation.leftTurn v])
    else if command = ("right").toList then
      if valueStr = [] then
        (("Error: Right command requires degrees or duration").toList, [])
      else
        let v := atoiChars valueStr
        if v ≤ 0 then (("Error: Value must be positive").toList, [])
        else if v = 90 ∨ v = 180 ∨ v = 270 ∨ v = 360 then
          (("Car turned right ").toList ++ intToChars v ++ (" degrees").toList,
           [Actuation.rightTurn (600 * (v / 90))])
        else
          (("Car turned right for ").toList ++ intToChars v ++ ("ms").toList,
           [Actuation.rightTurn v])
    else
      (("Error: Unknown command \x27").toList ++ command
        ++ ("\x27. Use: forward/backward/left/right/stop").toList, [])

/-- 32-bit unsigned subtraction `a - b` as performed on `unsigned long`
millis timestamps. -/
def usub32 (a b : Nat) : Nat :=
  (a % 2 ^ 32 + (2 ^ 32 - b % 2 ^ 32)) % 2 ^ 32

/-- The synthetic rate-limit response body. -/
def rateLimitResponse : List Char :=
  ("\x7b\"error\": \"Rate limit exceeded\"\x7d").toList

/-- The synthetic WiFi-failure response body. -/
def wifiErrorResponse : List Char :=
  ("\x7b\"error\": \"WiFi not connected\"\x7d").toList

/-- The explanatory suffix `makeOpenAIRequest` appends to a negative
HTTP client return code. -/
def httpCodeName (code : Int) : List Char :=
  if code = -1 then (" (HTTPC_ERROR_CONNECTION_REFUSED)").toList
  else if code = -2 then (" (HTTPC_ERROR_SEND_HEADER_FAILED)").toList
  else if code = -3 then (" (HTTPC_ERROR_SEND_PAYLOAD_FAILED)").toList
  else if code = -4 then (" (HTTPC_ERROR_NOT_CONNECTED)").toList
  else if code = -5 then (" (HTTPC_ERROR_CONNECTION_LOST)").toList
  else if code = -6 then (" (HTTPC_ERROR_READ_TIMEOUT)").toList
  else if code = -11 then (" (HTTPC_ERROR_CONNECTION_REFUSED)").toList
  else (" (Unknown error)").toList

/-- `makeOpenAIRequest` from openai_processor: the rate check against
the module-level `lastOpenAIRequest`, the WiFi check, and the HTTP POST
outcome.  `now` is the `millis()` reading at entry; `wifi` is the WiFi
link state; `httpCode`/`httpBody` model the external HTTP client.  The
result is the response string paired with the updated
`lastOpenAIRequest` value. -/
def makeOpenAIRequest (now lastOpenAIRequest : Nat) (wifi : Bool)
    (httpCode : Int) (httpBody : List Char) : List Char × Nat :=
  if usub32 now lastOpenAIRequest < 1000 then
    (rateLimitResponse, lastOpenAIRequest)
  else
    if ¬ wifi then (wifiErrorResponse, now)
    else if 0 < httpCode then (httpBody, now)
    else
      ((("\x7b\"error\": \"HTTP request failed: ").toList ++ intToChars httpCode
        ++ httpCodeName httpCode ++ ("\"\x7d").toList, now))

/-- The decision every failure path of `parsePlanningResponse` starts
from: zero tool calls, both flags false, empty strings. -/
def emptyDecision : PlanningDecision :=
  { toolCalls := [], shouldContinue := false, objectiveComplete := false,
    reasoning := [], nextContext := [] }

/-- One tool call as `parsePlanningResponse` builds it from a JSON array
element; `isValid` is derived there as `confidence > 0.9`. -/
def parsedToolCall (j : Json) : ToolCall :=
  let conf := jAsRat (jKey j (("confidence").toList))
  { tool := jAsString (jKey j (("tool").toList)),
    params := jAsString (jKey j (("params").toList)),
    confidence := conf,
    isValid := decide (mkRat 9 10 < conf) }

/-- The envelope walk
`doc["choices"][0]["message"]["content"]` guarded by the three
`containsKey` checks; `none` is the "No content found" path. -/
def jContentOf (doc : Json) : Option (List Char) :=
  if jContainsKey doc (("choices").toList)
      && jContainsKey (jIdx (jKey doc (("choices").toList)) 0) (("message").toList)
      && jContainsKey (jKey (jIdx (jKey doc (("choices").toList)) 0) (("message").toList))
           (("content").toList) then
    some (jAsString (jKey (jKey (jIdx (jKey doc (("choices").toList)) 0)
      (("message").toList)) (("content").toList)))
  else none

/-- `parsePlanningResponse` from openai_processor: the raw error-marker
scan, the outer JSON parse, the content extraction, the inner JSON
parse, the tool-call array (capped at 5), and the four decision fields
with their absent-key defaults.  `deserialize` models the external
ArduinoJson `deserializeJson`, returning the error text on failure. -/
def parsePlanningResponse (deserialize : List Char → Except (List Char) Json)
    (jsonResponse : List Char) : PlanningDecision :=
  if (indexOfChars jsonResponse (("\"error\"").toList)).isSome then
    { emptyDecision with reasoning := ("OpenAI API error: ").toList ++ jsonResponse }
  else
    match deserialize jsonResponse with
    | Except.error e =>
        { emptyDecision with reasoning := ("JSON parsing failed: ").toList ++ e }
    | Except.ok doc =>
        match jContentOf doc with
        | none =>
            { emptyDecision with reasoning := ("No content found in OpenAI response").toList }
        | some content =>
            match deserialize content with
            | Except.error e =>
                { emptyDecision with
                  reasoning := ("Content JSON parsing failed: ").toList ++ e }
            | Except.ok contentDoc =>
                let calls :=
                  if jContainsKey contentDoc (("tool_calls").toList) then
                    ((jArrElems (jKey contentDoc (("tool_calls").toList))).take 5).map
                      parsedToolCall
                  else []
                { toolCalls := calls,
                  shouldContinue :=
                    if jContainsKey contentDoc (("should_continue").toList) then
                      jAsBool (jKey contentDoc (("should_continue").toList))
                    else false,
                  objectiveComplete :=
                    if jContainsKey contentDoc (("objective_complete").toList) then
                      jAsBool (jKey contentDoc (("objective_complete").toList))
                    else false,
                  reasoning :=
                    if jContainsKey contentDoc (("reasoning").toList) then
                      jAsString (jKey contentDoc (("reasoning").toList))
                    else [],
                  nextContext :=
                    if jContainsKey contentDoc (("next_context").toList) then
                      jAsString (jKey contentDoc (("next_context").toList))
                    else [] }

/-- Hundredths of a rational, rounded half up: the value whose digits
`String(float)` prints with its default two decimals. -/
def centsOf (q : Rat) : Int :=
  (200 * q.num + (q.den : Int)) / (2 * (q.den : Int))

/-- The skipped-action log line of `executePlanningToolCalls`; the
two-decimal confidence rendering of `String(float)` is modelled by
rounding to hundredths. -/
def skipLine (c : ToolCall) : List Char :=
  let cents := centsOf c.confidence
  let frac := cents % 100
  ("Skipping ").toList ++ c.tool ++ (" (confidence: ").toList
    ++ intToChars (cents / 100) ++ (".").toList
    ++ (if frac < 10 then ("0").toList else []) ++ intToChars frac
    ++ (" < 0.9)\n").toList

/-- The per-action loop of `executePlanningToolCalls`, threading an
abstract world `σ` through `execTool` (the embedding of `executeTool`,
which has real side effects).  `i` is the 0-based position used for the
`[i+1]` labels; invalid calls are skipped with a log line and are never
passed to `execTool`. -/
def execCallsAux {σ : Type} (execTool : List Char → List Char → σ → σ × List Char) :
    List ToolCall → Nat → σ → σ × List Char
  | [], _, w => (w, [])
  | c :: rest, i, w =>
      if c.isValid = false then
        let r := execCallsAux execTool rest (i + 1) w
        (r.1, skipLine c ++ r.2)
      else
        let step := execTool c.tool c.params w
        let r := execCallsAux execTool rest (i + 1) step.1
        (r.1, ("[").toList ++ natToChars (i + 1) ++ ("] ").toList ++ c.tool
          ++ (": ").toList ++ step.2 ++ ("\n").toList ++ r.2)

/-- `executePlanningToolCalls` from openai_processor: the no-call fast
path and the header plus per-action lines otherwise.  The fixed 250ms
settle delays are timing only and are not modelled. -/
def executePlanningToolCalls {σ : Type}
    (execTool : List Char → List Char → σ → σ × List Char)
    (decision : PlanningDecision) (w : σ) : σ × List Char :=
  if decision.toolCalls = [] then
    (w, ("No tool calls to execute in this iteration").toList)
  else
    let r := execCallsAux execTool decision.toolCalls 0 w
    (r.1, ("Iteration tool calls:\n").toList ++ r.2)

/-- Pure result text of the tool-call loop, used inside the planning
loop where only the transcript feeds back into the session. -/
def executePlanningToolCallsStr (execTool : List Char → List Char → List Char)
    (decision : PlanningDecision) : List Char :=
  (executePlanningToolCalls (fun t p (w : Unit) => (w, execTool t p)) decision ()).2

/-- `evaluateGoalCompletion` from openai_processor, translated clause by
clause: all four strings are case-folded; the distance block extracts
the threshold between the first `within` and the first `cm` of the
objective (the source re-checks `!= -1` on both indices, which is
redundant and folded into the match), then scans the results from the
first `distance:` marker (falling back to `sonar distance:`) for the
first digit run and compares; the `until` block and the stop/halt block
follow as the source's later early returns. -/
def evaluateGoalCompletion (session : PlanningSession) (latestResults : List Char) : Bool :=
  let objective := lowerChars session.objective
  let context := lowerChars session.currentContext
  let results := lowerChars latestResults
  let distanceCase : Bool :=
    match indexOfChars objective (("within").toList),
          indexOfChars objective (("cm").toList) with
    | some withinIndex, some cmIndex =>
        if withinIndex < cmIndex then
          let targetDistance :=
            atoiChars (trimChars (substringChars objective (withinIndex + 6) cmIndex))
          if (indexOfChars results (("distance:").toList)).isSome
              || (indexOfChars results (("sonar distance:").toList)).isSome then
            match (match indexOfChars results (("distance:").toList) with
                   | some k => some k
                   | none => indexOfChars results (("sonar distance:").toList)) with
            | some distanceStart =>
                match firstDigitRun (results.drop distanceStart) with
                | some run => decide (atoiChars run ≤ targetDistance)
                | none => false
            | none => false
          else false
        else false
    | _, _ => false
  if distanceCase then true
  else if (indexOfChars objective (("until").toList)).isSome
      && (indexOfChars results (("within").toList)).isSome
      && (indexOfChars results (("cm").toList)).isSome then true
  else if ((indexOfChars objective (("stop").toList)).isSome
        || (indexOfChars objective (("halt").toList)).isSome)
      && ((indexOfChars context (("stopped").toList)).isSome
        || (indexOfChars results (("stopped").toList)).isSome) then true
  else false

/-- Specification-side reading of the distance threshold the objective
asks for: the integer between the first `within` and the first `cm`
(case-folded), when both are present in that order. -/
def thresholdOfObjective (objective : List Char) : Option Int :=
  let o := lowerChars objective
  match indexOfChars o (("within").toList), indexOfChars o (("cm").toList) with
  | some withinIndex, some cmIndex =>
      if withinIndex < cmIndex then
        some (atoiChars (trimChars (substringChars o (withinIndex + 6) cmIndex)))
      else none
  | _, _ => none

/-- Specification-side reading of the first integer following the first
`distance:` marker (falling back to `sonar distance:`) of the
case-folded results. -/
def readingOfResults (results : List Char) : Option Int :=
  let r := lowerChars results
  if (indexOfChars r (("distance:").toList)).isSome
      || (indexOfChars r (("sonar distance:").toList)).isSome then
    match (match indexOfChars r (("distance:").toList) with
           | some k => some k
           | none => indexOfChars r (("sonar distance:").toList)) with
    | some distanceStart =>
        match firstDigitRun (r.drop distanceStart) with
        | some run => some (atoiChars run)
        | none => none
    | none => none
  else none

/-- The evaluator's `until` fallback: the objective mentions `until` and
the results mention both `within` and `cm`. -/
def untilFallback (objective results : List Char) : Bool :=
  (indexOfChars (lowerChars objective) (("until").toList)).isSome
    && (indexOfChars (lowerChars results) (("within").toList)).isSome
    && (indexOfChars (lowerChars results) (("cm").toList)).isSome

/-- The evaluator's stop/halt fallback: the objective mentions `stop` or
`halt` and the context or results mention `stopped`. -/
def stopFallback (objective context results : List Char) : Bool :=
  ((indexOfChars (lowerChars objective) (("stop").toList)).isSome
    || (indexOfChars (lowerChars objective) (("halt").toList)).isSome)
    && ((indexOfChars (lowerChars context) (("stopped").toList)).isSome
      || (indexOfChars (lowerChars results) (("stopped").toList)).isSome)

/-- `updatePlanningSession` from openai_processor: append the iteration
block to the history, re-evaluate the goal on the updated session, and
adopt the suggested next context or synthesize the default one.  The
MQTT success message is emission only and is not modelled. -/
def updatePlanningSession (session : PlanningSession) (decision : PlanningDecision)
    (executionResults : List Char) : PlanningSession :=
  let hist0 :=
    if session.executionHistory ≠ [] then session.executionHistory ++ ("\n").toList
    else session.executionHistory
  let hist := hist0 ++ ("--- Iteration ").toList ++ natToChars session.iterationCount
    ++ (" ---\n").toList ++ ("Reasoning: ").toList ++ decision.reasoning
    ++ ("\n").toList ++ executionResults
  let s1 := { session with executionHistory := hist }
  let s2 :=
    if evaluateGoalCompletion s1 executionResults then
      { s1 with isComplete := true
                finalResult := ("Objective achieved based on goal evaluation").toList }
    else s1
  if decision.nextContext ≠ [] then
    { s2 with currentContext := decision.nextContext }
  else
    { s2 with currentContext := ("Completed iteration ").toList
        ++ natToChars session.iterationCount ++ (". ").toList ++ session.currentContext }

/-- The external collaborators of the planning loop: `oracle` is
`processObjectiveIteratively` (prompt build, HTTP request and response
parse collapsed into one function of the session, which is all the loop
observes); `timeOk` is the `millis() - startTime < MAX_PLANNING_TIME`
guard reading at the n-th loop test (the external clock is free to
answer anything); `execTool` is `executeTool`; `now` is the `millis()`
reading recorded at iteration starts. -/
structure PlanEnv where
  oracle : PlanningSession → PlanningDecision
  timeOk : Nat → Bool
  execTool : List Char → List Char → List Char
  now : Nat → Nat

/-- `MAX_ITERATIONS` from `executeIterativePlanning`. -/
def MAX_ITERATIONS : Nat := 10

/-- The first two statements of the loop body: increment the iteration
count and record the iteration timestamp. -/
def bumpSession (env : PlanEnv) (s : PlanningSession) : PlanningSession :=
  { s with iterationCount := s.iterationCount + 1,
           lastIterationTime := env.now (s.iterationCount + 1) }

/-- The decision the reasoning service returns for the current
iteration (after the count was incremented). -/
def planDecisionOf (env : PlanEnv) (s : PlanningSession) : PlanningDecision :=
  env.oracle (bumpSession env s)

/-- One full iteration of the `while` body of
`executeIterativePlanning`: count increment, reasoning call, the two
early stop branches (`!shouldContinue`, `objectiveComplete`), else tool
execution and session update (which may itself complete the session via
goal evaluation). -/
def planIteration (env : PlanEnv) (s : PlanningSession) : PlanningSession :=
  if (planDecisionOf env s).shouldContinue = false then
    { bumpSession env s with isComplete := true
                             finalResult := (planDecisionOf env s).reasoning }
  else if (planDecisionOf env s).objectiveComplete = true then
    { bumpSession env s with isComplete := true
                             finalResult := (planDecisionOf env s).reasoning }
  else
    updatePlanningSession (bumpSession env s) (planDecisionOf env s)
      (executePlanningToolCallsStr env.execTool (planDecisionOf env s))

/-- The `while` guard of `executeIterativePlanning`:
`!isComplete && iterationCount < MAX_ITERATIONS && time budget left`. -/
def loopGuard (env : PlanEnv) (s : PlanningSession) : Bool :=
  !s.isComplete && decide (s.iterationCount < MAX_ITERATIONS) && env.timeOk s.iterationCount

/-- The planning `while` loop, with explicit fuel.  The source loop
needs no fuel: its guard requires `iterationCount < MAX_ITERATIONS` and
every iteration increments the count, so `MAX_ITERATIONS` fuel is
always enough — `planLoopFuel_stable` below proves that any fuel of at
least `MAX_ITERATIONS - iterationCount` gives the same result, which is
exactly the termination argument for the source loop. -/
def planLoopFuel (env : PlanEnv) : Nat → PlanningSession → PlanningSession
  | 0, s => s
  | fuel + 1, s =>
      if loopGuard env s = true then planLoopFuel env fuel (planIteration env s) else s

/-- The session as `executeIterativePlanning` initializes it. -/
def initSession (env : PlanEnv) (objective : List Char) : PlanningSession :=
  { objective := objective,
    currentContext := ("Starting fresh. Objective: ").toList ++ objective,
    executionHistory := [],
    iterationCount := 0,
    isComplete := false,
    finalResult := [],
    startTime := env.now 0,
    lastIterationTime := env.now 0 }

/-- The budget-exhaustion message for the iteration cap. -/
def maxIterationsMsg : List Char :=
  ("Planning stopped: Maximum iterations reached (").toList
    ++ natToChars MAX_ITERATIONS ++ (")").toList

/-- The budget-exhaustion message for the time cap. -/
def timeLimitMsg : List Char :=
  ("Planning stopped: Time limit reached").toList

/-- `executeIterativePlanning` up to its final session state: run the
loop from the fresh session, then apply the post-loop tagging that
distinguishes the two budget-exhaustion causes when the loop exited
without `isComplete`.  The returned summary string is assembled from
this session and adds nothing to its state. -/
def executeIterativePlanning (env : PlanEnv) (objective : List Char) : PlanningSession :=
  let s := planLoopFuel env MAX_ITERATIONS (initSession env objective)
  if s.isComplete then s
  else if MAX_ITERATIONS ≤ s.iterationCount then { s with finalResult := maxIterationsMsg }
  else { s with finalResult := timeLimitMsg }

/-- The keyword list of `isComplexObjective`. -/
def complexKeywords : List (List Char) :=
  [("explore").toList, ("find").toList, ("search").toList, ("navigate").toList,
   ("avoid").toList, ("reach").toList, ("locate").toList, ("discover").toList,
   ("investigate").toList, ("map").toList, ("survey").toList, ("patrol").toList,
   ("monitor").toList, ("follow").toList, ("track").toList, ("chase").toList,
   ("escape").toList, ("hide").toList, ("seek").toList]

/-- `isComplexObjective` from arduino-car.ino: case-fold, then test the
keyword list, the conditional-language markers, and the conjunction
markers. -/
def isComplexObjective (command : List Char) : Bool :=
  let c := lowerChars command
  if complexKeywords.any (fun k => (indexOfChars c k).isSome) then true
  else if (indexOfChars c (("if").toList)).isSome
      || (indexOfChars c (("when").toList)).isSome
      || (indexOfChars c (("until").toList)).isSome
      || (indexOfChars c (("while").toList)).isSome
      || (indexOfChars c (("then").toList)).isSome then true
  else if (indexOfChars c ((" and ").toList)).isSome
      || (indexOfChars c ((" or ").toList)).isSome
      || (indexOfChars c ((" but ").toList)).isSome then true
  else false

/-- `executeCommand` from arduino-car.ino: trim, then route to the
iterative-planning path when `isComplexObjective` holds and to the
direct `processWithOpenAI`/`executeToolCalls` path otherwise.  The two
paths are parameters, so the theorem below observes which one runs. -/
def executeCommand (planningPath directPath : List Char → List Char)
    (command : List Char) : List Char :=
  let c := trimChars command
  if isComplexObjective c then planningPath c else directPath c

/-- The MQTT `callback` from arduino-car.ino, from JSON parsing onward:
on a parse error, an error status; on a message whose `robot_id` equals
`arduino_car`, silence; on a missing `content` field, an error status;
otherwise the command is executed and a status is published.  The
result is the pair (status messages published, commands executed);
`execCmd` models `executeCommand` and `deserialize` models ArduinoJson. -/
def callback (deserialize : List Char → Except (List Char) Json)
    (execCmd : List Char → List Char) (payload : List Char) :
    List (List Char) × List (List Char) :=
  match deserialize payload with
  | Except.error _ => ([("Error: Invalid JSON format").toList], [])
  | Except.ok doc =>
      if jContainsKey doc (("robot_id").toList)
          && jsonEqStr (jKey doc (("robot_id").toList)) (("arduino_car").toList) then
        ([], [])
      else if jContainsKey doc (("content").toList) = false then
        ([("Error: No \x27content\x27 field in JSON").toList], [])
      else
        let content := jAsString (jKey doc (("content").toList))
        let result := execCmd content
        ([("Command executed: ").toList ++ content ++ (" | Result: ").toList ++ result],
         [content])

/-- Wire text of a reply envelope whose content is a planning JSON with
one tool call and none of the four decision fields. -/
def rawToolCallsOnly : List Char :=
  ("\x7b\"choices\": [\x7b\"message\": \x7b\"content\": \"\x7b\\\"tool_calls\\\": [\x7b\\\"tool\\\": \\\"move_car\\\", \\\"params\\\": \\\"forward 1000\\\", \\\"confidence\\\": 0.95\x7d]\x7d\"\x7d\x7d]\x7d").toList

/-- The content string carried by `rawToolCallsOnly`. -/
def innerToolCallsOnly : List Char :=
  ("\x7b\"tool_calls\": [\x7b\"tool\": \"move_car\", \"params\": \"forward 1000\", \"confidence\": 0.95\x7d]\x7d").toList

/-- Parsed document of `innerToolCallsOnly`. -/
def innerToolCallsOnlyDoc : Json :=
  Json.obj [((("tool_calls").toList),
    Json.arr [Json.obj [((("tool").toList), Json.str (("move_car").toList)),
                        ((("params").toList), Json.str (("forward 1000").toList)),
                        ((("confidence").toList), Json.num (mkRat 95 100))]])]

/-- Wire text of a reply envelope whose content is the empty object. -/
def rawNoFields : List Char :=
  ("\x7b\"choices\": [\x7b\"message\": \x7b\"content\": \"\x7b\x7d\"\x7d\x7d]\x7d").toList

/-- The content string carried by `rawNoFields`. -/
def innerNoFields : List Char := ("\x7b\x7d").toList

/-- Envelope document with the given content string, shaped as the
OpenAI chat-completion reply the firmware walks. -/
def envelopeDoc (content : List Char) : Json :=
  Json.obj [((("choices").toList),
    Json.arr [Json.obj [((("message").toList),
      Json.obj [((("content").toList), Json.str content)])]])]

/-- A concrete stand-in for ArduinoJson on the concrete documents used
in the witnesses: it parses the two envelopes above and their embedded
contents and rejects everything else. -/
def demoDeserialize (s : List Char) : Except (List Char) Json :=
  if s == rawToolCallsOnly then Except.ok (envelopeDoc innerToolCallsOnly)
  else if s == innerToolCallsOnly then Except.ok innerToolCallsOnlyDoc
  else if s == rawNoFields then Except.ok (envelopeDoc innerNoFields)
  else if s == innerNoFields then Except.ok (Json.obj [])
  else Except.error (("EmptyInput").toList)

/-- Wire text of a reply envelope whose content holds two tool calls,
at confidence 0.89 and 0.91, and continuation fields. -/
def rawTwoCalls : List Char :=
  ("\x7b\"choices\": [\x7b\"message\": \x7b\"content\": \"\x7b\\\"tool_calls\\\": [\x7b\\\"tool\\\": \\\"move_car\\\", \\\"params\\\": \\\"forward 1000\\\", \\\"confidence\\\": 0.89\x7d, \x7b\\\"tool\\\": \\\"get_sonar_distance\\\", \\\"params\\\": \\\"\\\", \\\"confidence\\\": 0.91\x7d], \\\"should_continue\\\": true, \\\"objective_complete\\\": false, \\\"reasoning\\\": \\\"probe\\\", \\\"next_context\\\": \\\"probing\\\"\x7d\"\x7d\x7d]\x7d").toList

/-- The content string carried by `rawTwoCalls`. -/
def innerTwoCalls : List Char :=
  ("\x7b\"tool_calls\": [\x7b\"tool\": \"move_car\", \"params\": \"forward 1000\", \"confidence\": 0.89\x7d, \x7b\"tool\": \"get_sonar_distance\", \"params\": \"\", \"confidence\": 0.91\x7d], \"should_continue\": true, \"objective_complete\": false, \"reasoning\": \"probe\", \"next_context\": \"probing\"\x7d").toList

/-- Parsed document of `innerTwoCalls`. -/
def innerTwoCallsDoc : Json :=
  Json.obj [((("tool_calls").toList),
    Json.arr [Json.obj [((("tool").toList), Json.str (("move_car").toList)),
                        ((("params").toList), Json.str (("forward 1000").toList)),
                        ((("confidence").toList), Json.num (mkRat 89 100))],
              Json.obj [((("tool").toList), Json.str (("get_sonar_distance").toList)),
                        ((("params").toList), Json.str []),
                        ((("confidence").toList), Json.num (mkRat 91 100))]]),
    ((("should_continue").toList), Json.bool true),
    ((("objective_complete").toList), Json.bool false),
    ((("reasoning").toList), Json.str (("probe").toList)),
    ((("next_context").toList), Json.str (("probing").toList))]

/-- Concrete deserializer for the two-call envelope. -/
def demoDeserializeTwoCalls (s : List Char) : Except (List Char) Json :=
  if s == rawTwoCalls then Except.ok (envelopeDoc innerTwoCalls)
  else if s == innerTwoCalls then Except.ok innerTwoCallsDoc
  else Except.error (("EmptyInput").toList)

/-- A well-formed self-originated MQTT message. -/
def selfPayload : List Char :=
  ("\x7b\"robot_id\": \"arduino_car\", \"content\": \"move forward\"\x7d").toList

/-- Parsed document of `selfPayload`. -/
def selfPayloadDoc : Json :=
  Json.obj [((("robot_id").toList), Json.str (("arduino_car").toList)),
            ((("content").toList), Json.str (("move forward").toList))]

/-- Concrete deserializer for the self-originated message. -/
def demoDeserializeSelf (s : List Char) : Except (List Char) Json :=
  if s == selfPayload then Except.ok selfPayloadDoc
  else Except.error (("EmptyInput").toList)

/-- The adversarial reasoning service: always ask to continue, never
declare completion, propose no actions. -/
def adversarialEnv : PlanEnv :=
  { oracle := fun _ =>
      { toolCalls := [], shouldContinue := true, objectiveComplete := false,
        reasoning := ("keep going").toList, nextContext := [] },
    timeOk := fun _ => true,
    execTool := fun _ _ => [],
    now := fun _ => 0 }

/-- A reasoning service that immediately declines to continue. -/
def decliningEnv : PlanEnv :=
  { oracle := fun _ =>
      { toolCalls := [], shouldContinue := false, objectiveComplete := false,
        reasoning := ("nothing to do").toList, nextContext := [] },
    timeOk := fun _ => true,
    execTool := fun _ _ => [],
    now := fun _ => 0 }

/-- An environment whose clock has already exhausted the time budget at
the first guard test. -/
def timedOutEnv : PlanEnv :=
  { oracle := fun _ =>
      { toolCalls := [], shouldContinue := true, objectiveComplete := false,
        reasoning := [], nextContext := [] },
    timeOk := fun _ => false,
    execTool := fun _ _ => [],
    now := fun _ => 0 }

/-- A reasoning service that declares the objective complete at once. -/
def completingEnv : PlanEnv :=
  { oracle := fun _ =>
      { toolCalls := [], shouldContinue := true, objectiveComplete := true,
        reasoning := ("objective done").toList, nextContext := [] },
    timeOk := fun _ => true,
    execTool := fun _ _ => [],
    now := fun _ => 0 }

/-- The threshold objective of the goal-evaluator claims. -/
def thresholdObjective : List Char :=
  ("move forward until within 20cm of obstacle").toList

/-- A session carrying the threshold objective, as the loop would hold
it when the evaluator runs. -/
def thresholdSession : PlanningSession :=
  { objective := thresholdObjective,
    currentContext := ("Moving toward obstacle").toList,
    executionHistory := [],
    iterationCount := 1, isComplete := false, finalResult := [],
    startTime := 0, lastIterationTime := 0 }

set_option maxRecDepth 100000

/-- A needle that is a prefix of the haystack occurs in it. -/
theorem occursInChars_of_isPrefixOf {s n : List Char} (h : n.isPrefixOf s = true) :
    occursInChars s n = true := by
  unfold occursInChars indexOfChars
  rw [if_pos h]
  rfl

/-- Occurrence survives prepending text to the haystack. -/
theorem occursInChars_append_left (n s : List Char) (h : occursInChars s n = true) :
    ∀ a : List Char, occursInChars (a ++ s) n = true := by
  intro a
  induction a with
  | nil => simpa using h
  | cons x t ih =>
      rw [List.cons_append]
      by_cases hp : n.isPrefixOf (x :: (t ++ s))
      · exact occursInChars_of_isPrefixOf hp
      · show (indexOfChars (x :: (t ++ s)) n).isSome = true
        unfold indexOfChars
        rw [if_neg hp]
        have ih' : (indexOfChars (t ++ s) n).isSome = true := ih
        rcases hx : indexOfChars (t ++ s) n with _ | k
        · rw [hx] at ih'
          simp at ih'
        · simp [hx]

/-- A needle occurs in any haystack beginning with it. -/
theorem occursInChars_self_append (n rest : List Char) :
    occursInChars (n ++ rest) n = true := by
  apply occursInChars_of_isPrefixOf
  rw [List.isPrefixOf_iff_prefix]
  exact List.prefix_append n rest

/-- The sampling loop keeps no reading when every sample is invalid. -/
theorem sonarReadAux_all_invalid (pings : Nat → Int) :
    ∀ idxs : List Nat, (∀ i ∈ idxs, sonarValid (pings i) = false) →
    (sonarReadAux pings idxs).1 = [] := by
  intro idxs
  induction idxs with
  | nil => intro _; rfl
  | cons i rest ih =>
      intro h
      have hi := h i (List.mem_cons_self i rest)
      have hr := ih (fun j hj => h j (List.mem_cons_of_mem i hj))
      simp [sonarReadAux, hi, hr]

/-- C2.  The spec and the repository architecture notes state that every
inbound command is handed to the iterative planning loop, with no
separate simple-command path.  The code disagrees: `executeCommand`
routes through `isComplexObjective`, and a command matching no complex
keyword, no conditional marker and no conjunction — such as `beep` —
takes the direct `processWithOpenAI`/`executeToolCalls` path, never
reaching `executeIterativePlanning`. -/
theorem c2_single_entry_path_violated :
    isComplexObjective (("beep").toList) = false
    ∧ executeCommand (fun _ => ("PLANNING").toList) (fun _ => ("DIRECT").toList)
        (("beep").toList) = ("DIRECT").toList := by
  decide

/-- C8.  Any inbound message the deserializer accepts whose `robot_id`
field is the string `arduino_car` is dropped by `callback` before any
command execution: no command runs and no status message is published,
whatever the `content` field holds. -/
theorem c8_self_message_suppression (de : List Char → Except (List Char) Json)
    (execCmd : List Char → List Char) (payload : List Char) (doc : Json)
    (h1 : de payload = Except.ok doc)
    (h2 : jContainsKey doc (("robot_id").toList) = true)
    (h3 : jsonEqStr (jKey doc (("robot_id").toList)) (("arduino_car").toList) = true) :
    callback de execCmd payload = ([], []) := by
  have hcond : (jContainsKey doc (("robot_id").toList)
      && jsonEqStr (jKey doc (("robot_id").toList)) (("arduino_car").toList)) = true := by
    rw [h2, h3]
    rfl
  unfold callback
  rw [h1]
  exact if_pos hcond

/-- Witness for C8 on a concrete well-formed self-originated message. -/
theorem c8_self_message_suppression_witness :
    callback demoDeserializeSelf (fun _ => []) selfPayload = ([], []) := by
  exact c8_self_message_suppression demoDeserializeSelf (fun _ => []) selfPayload
    selfPayloadDoc rfl (by decide) (by decide)

/-- C10.  The rate-limit timestamp is consumed by every request that
passes the interval check, even one that then fails: after a call at
`t1` that passes the rate check but hits the WiFi-down error,
`lastOpenAIRequest` equals `t1`, so a second call within 1000ms of `t1`
gets the synthetic rate-limit error instead of retrying. -/
theorem c10_rate_limit_timestamp_consumed :
    (∀ now last wifi httpCode httpBody, ¬ usub32 now last < 1000 →
      (makeOpenAIRequest now last wifi httpCode httpBody).2 = now)
    ∧ (∀ last t1 t2 wifi2 code1 body1 code2 body2,
        ¬ usub32 t1 last < 1000 → usub32 t2 t1 < 1000 →
        (makeOpenAIRequest t1 last false code1 body1).1 = wifiErrorResponse
        ∧ (makeOpenAIRequest t1 last false code1 body1).2 = t1
        ∧ (makeOpenAIRequest t2 (makeOpenAIRequest t1 last false code1 body1).2
            wifi2 code2 body2).1 = rateLimitResponse) := by
  constructor
  · intro now last wifi httpCode httpBody h
    unfold makeOpenAIRequest
    rw [if_neg h]
    by_cases hw : wifi
    · simp only [hw]
      by_cases hc : (0 : Int) < httpCode
      · simp [hc]
      · simp [hc]
    · simp [hw]
  · intro last t1 t2 wifi2 code1 body1 code2 body2 h1 h2
    have hsnd : (makeOpenAIRequest t1 last false code1 body1).2 = t1 := by
      unfold makeOpenAIRequest
      rw [if_neg h1]
      simp
    refine ⟨?_, hsnd, ?_⟩
    · unfold makeOpenAIRequest
      rw [if_neg h1]
      simp
    · rw [hsnd]
      unfold makeOpenAIRequest
      rw [if_pos h2]

/-- Witness for C10: a failed call at t=5000 still arms the limiter, so
a retry at t=5500 is rejected. -/
theorem c10_rate_limit_timestamp_consumed_witness :
    (makeOpenAIRequest 5000 0 false (-1) []).1 = wifiErrorResponse
    ∧ (makeOpenAIRequest 5000 0 false (-1) []).2 = 5000
    ∧ (makeOpenAIRequest 5500 (makeOpenAIRequest 5000 0 false (-1) []).2
        true 200 (("ok").toList)).1 = rateLimitResponse := by
  exact c10_rate_limit_timestamp_consumed.2 0 5000 5500 true (-1) [] 200 (("ok").toList)
    (by decide) (by decide)

/-- C7.  Distance averaging: on raw samples 10, 0, 12, 401, 11 exactly
three are valid, the reported average is the integer mean 11, the
returned string reports the average with the valid count, the 3/5 valid
count is published, and any sample sequence with no valid sample yields
the explicit out-of-range string. -/
theorem c7_distance_averaging :
    ((sonarReadAux (fun i => [10, 0, 12, 401, 11].getD i 0) (List.range 5)).1.length = 3
    ∧ (getSonarDistance (fun i => [10, 0, 12, 401, 11].getD i 0)).1
        = ("Distance: 11 cm (avg of 3 readings)").toList
    ∧ (("Sonar measurement complete: 3/5 valid readings").toList)
        ∈ (getSonarDistance (fun i => [10, 0, 12, 401, 11].getD i 0)).2)
    ∧ (∀ pings : Nat → Int, (∀ i, i < 5 → sonarValid (pings i) = false) →
        (getSonarDistance pings).1 = ("Distance: Out of range (>400cm or no echo)").toList) := by
  constructor
  · refine ⟨by decide, by decide, by decide⟩
  · intro pings h
    have hv : (sonarReadAux pings (List.range 5)).1 = [] := by
      apply sonarReadAux_all_invalid
      intro i hi
      exact h i (by simpa using hi)
    simp [getSonarDistance, hv]

/-- Witness for C7 on the all-invalid sampler that always returns 0. -/
theorem c7_distance_averaging_witness :
    (getSonarDistance (fun _ => 0)).1
      = ("Distance: Out of range (>400cm or no echo)").toList := by
  exact c7_distance_averaging.2 (fun _ => 0) (fun _ _ => rfl)

/-- The tool-call loop's world trace, under a logging executor, is the
in-order list of the accepted calls only. -/
theorem execCallsAux_trace (f : List Char → List Char → List Char) :
    ∀ (calls : List ToolCall) (i : Nat) (w : List (List Char × List Char)),
    (execCallsAux (fun t p (tr : List (List Char × List Char)) => (tr ++ [(t, p)], f t p))
      calls i w).1
      = w ++ (calls.filter (fun c => c.isValid)).map (fun c => (c.tool, c.params)) := by
  intro calls
  induction calls with
  | nil => intro i w; simp [execCallsAux]
  | cons c rest ih =>
      intro i w
      by_cases hc : c.isValid = false
      · simp [execCallsAux, hc, ih]
      · have hc' : c.isValid = true := by
          cases h : c.isValid
          · exact absurd h hc
          · rfl
        simp [execCallsAux, hc, hc', ih]

/-- Unfolding step of the tool-call loop at a skipped call. -/
theorem execCallsAux_cons_invalid {σ : Type}
    (execTool : List Char → List Char → σ → σ × List Char)
    (c : ToolCall) (rest : List ToolCall) (i : Nat) (w : σ) (hv : c.isValid = false) :
    execCallsAux execTool (c :: rest) i w
      = ((execCallsAux execTool rest (i + 1) w).1,
         skipLine c ++ (execCallsAux execTool rest (i + 1) w).2) := by
  conv_lhs => unfold execCallsAux
  rw [if_pos hv]

/-- Unfolding step of the tool-call loop at an executed call. -/
theorem execCallsAux_cons_valid {σ : Type}
    (execTool : List Char → List Char → σ → σ × List Char)
    (c : ToolCall) (rest : List ToolCall) (i : Nat) (w : σ) (hd : c.isValid = true) :
    execCallsAux execTool (c :: rest) i w
      = ((execCallsAux execTool rest (i + 1) (execTool c.tool c.params w).1).1,
         (("[").toList ++ natToChars (i + 1) ++ ("] ").toList ++ c.tool ++ (": ").toList
           ++ (execTool c.tool c.params w).2 ++ ("\n").toList)
           ++ (execCallsAux execTool rest (i + 1) (execTool c.tool c.params w).1).2) := by
  conv_lhs => unfold execCallsAux
  rw [if_neg (by simp [hd])]

/-- Every invalid call in the list leaves its skip record in the
transcript the tool-call loop produces. -/
theorem execCallsAux_skip_recorded {σ : Type}
    (execTool : List Char → List Char → σ → σ × List Char) :
    ∀ (calls : List ToolCall) (i : Nat) (w : σ) (c : ToolCall),
    c ∈ calls → c.isValid = false →
    occursInChars (execCallsAux execTool calls i w).2
      ((("Skipping ").toList) ++ c.tool) = true := by
  intro calls
  induction calls with
  | nil => intro i w c hc; cases hc
  | cons d rest ih =>
      intro i w c hc hv
      rcases List.mem_cons.mp hc with rfl | hmem
      · rw [execCallsAux_cons_invalid execTool c rest i w hv]
        have hshape : skipLine c ++ (execCallsAux execTool rest (i + 1) w).2
            = ((("Skipping ").toList) ++ c.tool)
              ++ (((" (confidence: ").toList
                ++ intToChars (centsOf c.confidence / 100) ++ (".").toList
                ++ (if centsOf c.confidence % 100 < 10 then ("0").toList else [])
                ++ intToChars (centsOf c.confidence % 100) ++ (" < 0.9)\n").toList)
                ++ (execCallsAux execTool rest (i + 1) w).2) := by
          unfold skipLine
          simp [List.append_assoc]
        rw [hshape]
        exact occursInChars_self_append _ _
      · by_cases hd : d.isValid = false
        · rw [execCallsAux_cons_invalid execTool d rest i w hd]
          exact occursInChars_append_left _ _ (ih (i + 1) w c hmem hv) _
        · have hd' : d.isValid = true := by
            cases h : d.isValid
            · exact absurd h hd
            · rfl
          rw [execCallsAux_cons_valid execTool d rest i w hd']
          exact occursInChars_append_left _ _
            (ih (i + 1) (execTool d.tool d.params w).1 c hmem hv) _

/-- C5.  Confidence gating: every tool call built by
`parsePlanningResponse` carries `isValid = (confidence > 0.9)`; the
executor passes exactly the accepted calls, in order and at every
position, to `executeTool`, and records every rejected call as skipped
in the results text; concretely, a parsed decision holding calls at
confidence 0.89 and 0.91 executes only the 0.91 call and logs the 0.89
one as skipped. -/
theorem c5_confidence_gating :
    (∀ (de : List Char → Except (List Char) Json) (raw : List Char) (c : ToolCall),
      c ∈ (parsePlanningResponse de raw).toolCalls →
      c.isValid = decide (mkRat 9 10 < c.confidence))
    ∧ (∀ (f : List Char → List Char → List Char) (d : PlanningDecision),
        (executePlanningToolCalls
          (fun t p (tr : List (List Char × List Char)) => (tr ++ [(t, p)], f t p)) d []).1
          = (d.toolCalls.filter (fun c => c.isValid)).map (fun c => (c.tool, c.params)))
    ∧ (∀ (σ : Type) (execTool : List Char → List Char → σ → σ × List Char)
        (d : PlanningDecision) (w : σ) (c : ToolCall),
        c ∈ d.toolCalls → c.isValid = false →
        occursInChars (executePlanningToolCalls execTool d w).2
          ((("Skipping ").toList) ++ c.tool) = true)
    ∧ ((parsePlanningResponse demoDeserializeTwoCalls rawTwoCalls).toolCalls
        = [{ tool := ("move_car").toList, params := ("forward 1000").toList,
             confidence := mkRat 89 100, isValid := false },
           { tool := ("get_sonar_distance").toList, params := [],
             confidence := mkRat 91 100, isValid := true }]
      ∧ (executePlanningToolCalls
          (fun t p (tr : List (List Char × List Char)) => (tr ++ [(t, p)], []))
          (parsePlanningResponse demoDeserializeTwoCalls rawTwoCalls) []).1
          = [((("get_sonar_distance").toList), [])]
      ∧ occursInChars
          (executePlanningToolCallsStr (fun _ _ => [])
            (parsePlanningResponse demoDeserializeTwoCalls rawTwoCalls))
          (("Skipping move_car").toList) = true) := by
  refine ⟨?_, ?_, ?_, by decide, by decide, by decide⟩
  · intro de raw c hc
    unfold parsePlanningResponse at hc
    by_cases h1 : (indexOfChars raw (("\"error\"").toList)).isSome
    · rw [if_pos h1] at hc
      simp [emptyDecision] at hc
    · rw [if_neg h1] at hc
      cases hde : de raw with
      | error e =>
          simp only [hde, emptyDecision] at hc
          simp at hc
      | ok doc =>
          simp only [hde] at hc
          cases hct : jContentOf doc with
          | none =>
              simp only [hct, emptyDecision] at hc
              simp at hc
          | some content =>
              simp only [hct] at hc
              cases hde2 : de content with
              | error e =>
                  simp only [hde2, emptyDecision] at hc
                  simp at hc
              | ok contentDoc =>
                  simp only [hde2] at hc
                  by_cases htc : jContainsKey contentDoc (("tool_calls").toList) = true
                  · simp only [htc, if_pos] at hc
                    simp only [List.mem_map] at hc
                    obtain ⟨j, _, rfl⟩ := hc
                    rfl
                  · simp only [htc] at hc
                    simp at hc
  · intro f d
    by_cases hd : d.toolCalls = []
    · simp [executePlanningToolCalls, hd]
    · unfold executePlanningToolCalls
      rw [if_neg hd]
      simpa using execCallsAux_trace f d.toolCalls 0 []
  · intro σ execTool d w c hc hv
    have hne : d.toolCalls ≠ [] := by
      intro h
      rw [h] at hc
      cases hc
    unfold executePlanningToolCalls
    rw [if_neg hne]
    exact occursInChars_append_left _ _
      (execCallsAux_skip_recorded execTool d.toolCalls 0 w c hc hv) _

/-- Witness for C5 applying the gating parts at the concrete two-call
decision. -/
theorem c5_confidence_gating_witness :
    ((parsePlanningResponse demoDeserializeTwoCalls rawTwoCalls).toolCalls.getD 0
        { tool := [], params := [], confidence := 0, isValid := false }).isValid
      = decide (mkRat 9 10
          < ((parsePlanningResponse demoDeserializeTwoCalls rawTwoCalls).toolCalls.getD 0
              { tool := [], params := [], confidence := 0, isValid := false }).confidence)
    ∧ occursInChars
        (executePlanningToolCalls (fun _ _ (w : Unit) => (w, []))
          (parsePlanningResponse demoDeserializeTwoCalls rawTwoCalls) ()).2
        ((("Skipping ").toList)
          ++ ((parsePlanningResponse demoDeserializeTwoCalls rawTwoCalls).toolCalls.getD 0
              { tool := [], params := [], confidence := 0, isValid := false }).tool) = true := by
  constructor
  · exact c5_confidence_gating.1 demoDeserializeTwoCalls rawTwoCalls _ (by decide)
  · exact c5_confidence_gating.2.2.1 Unit (fun _ _ w => (w, []))
      (parsePlanningResponse demoDeserializeTwoCalls rawTwoCalls) () _ (by decide) (by decide)

/-- A completed session is a fixed point of the planning loop. -/
theorem planLoopFuel_of_complete (env : PlanEnv) :
    ∀ (fuel : Nat) (s : PlanningSession), s.isComplete = true →
    planLoopFuel env fuel s = s := by
  intro fuel s h
  cases fuel with
  | zero => rfl
  | succ n =>
      unfold planLoopFuel
      rw [if_neg (show ¬ loopGuard env s = true by unfold loopGuard; simp [h])]

/-- The session update never touches the iteration count. -/
theorem updatePlanningSession_iterationCount (s : PlanningSession)
    (d : PlanningDecision) (r : List Char) :
    (updatePlanningSession s d r).iterationCount = s.iterationCount := by
  simp [updatePlanningSession, apply_ite PlanningSession.iterationCount]

/-- One iteration increments the iteration count exactly once, at its
start, on every control path. -/
theorem planIteration_iterationCount (env : PlanEnv) (s : PlanningSession) :
    (planIteration env s).iterationCount = s.iterationCount + 1 := by
  unfold planIteration
  by_cases h1 : (planDecisionOf env s).shouldContinue = false
  · rw [if_pos h1]
    rfl
  · rw [if_neg h1]
    by_cases h2 : (planDecisionOf env s).objectiveComplete = true
    · rw [if_pos h2]
      rfl
    · rw [if_neg h2]
      rw [updatePlanningSession_iterationCount]
      rfl

/-- C3 (amended).  Every failure path of `parsePlanningResponse` yields
a decision with no tool calls, both flags false, empty next context and
a diagnostic reasoning; a reply that parses but carries none of the
five content keys yields exactly the all-default decision; and whenever
the decision of the first iteration has `shouldContinue = false` the
loop completes at that same iteration with the decision's reasoning as
final result. -/
theorem c3_failure_mapping :
    (∀ (de : List Char → Except (List Char) Json) (raw : List Char),
      (indexOfChars raw (("\"error\"").toList)).isSome = true →
      parsePlanningResponse de raw
        = { emptyDecision with reasoning := ("OpenAI API error: ").toList ++ raw })
    ∧ (∀ (de : List Char → Except (List Char) Json) (raw e : List Char),
        (indexOfChars raw (("\"error\"").toList)).isSome = false →
        de raw = Except.error e →
        parsePlanningResponse de raw
          = { emptyDecision with reasoning := ("JSON parsing failed: ").toList ++ e })
    ∧ (∀ (de : List Char → Except (List Char) Json) (raw : List Char) (doc : Json),
        (indexOfChars raw (("\"error\"").toList)).isSome = false →
        de raw = Except.ok doc → jContentOf doc = none →
        parsePlanningResponse de raw
          = { emptyDecision with reasoning := ("No content found in OpenAI response").toList })
    ∧ (∀ (de : List Char → Except (List Char) Json) (raw : List Char) (doc : Json)
        (content e : List Char),
        (indexOfChars raw (("\"error\"").toList)).isSome = false →
        de raw = Except.ok doc → jContentOf doc = some content →
        de content = Except.error e →
        parsePlanningResponse de raw
          = { emptyDecision with reasoning := ("Content JSON parsing failed: ").toList ++ e })
    ∧ (∀ (de : List Char → Except (List Char) Json) (raw : List Char) (doc contentDoc : Json)
        (content : List Char),
        (indexOfChars raw (("\"error\"").toList)).isSome = false →
        de raw = Except.ok doc → jContentOf doc = some content →
        de content = Except.ok contentDoc →
        jContainsKey contentDoc (("tool_calls").toList) = false →
        jContainsKey contentDoc (("should_continue").toList) = false →
        jContainsKey contentDoc (("objective_complete").toList) = false →
        jContainsKey contentDoc (("reasoning").toList) = false →
        jContainsKey contentDoc (("next_context").toList) = false →
        parsePlanningResponse de raw = emptyDecision)
    ∧ (∀ (env : PlanEnv) (objective : List Char),
        env.timeOk 0 = true →
        (planDecisionOf env (initSession env objective)).shouldContinue = false →
        (executeIterativePlanning env objective).isComplete = true
        ∧ (executeIterativePlanning env objective).iterationCount = 1
        ∧ (executeIterativePlanning env objective).finalResult
            = (planDecisionOf env (initSession env objective)).reasoning) := by
  refine ⟨?_, ?_, ?_, ?_, ?_, ?_⟩
  · intro de raw h
    unfold parsePlanningResponse
    rw [if_pos h]
  · intro de raw e h1 h2
    unfold parsePlanningResponse
    rw [if_neg (by rw [h1]; simp)]
    rw [h2]
  · intro de raw doc h1 h2 h3
    unfold parsePlanningResponse
    rw [if_neg (by rw [h1]; simp)]
    rw [h2]
    simp only [h3]
  · intro de raw doc content e h1 h2 h3 h4
    unfold parsePlanningResponse
    rw [if_neg (by rw [h1]; simp)]
    rw [h2]
    simp only [h3]
    rw [h4]
  · intro de raw doc contentDoc content h1 h2 h3 h4 k1 k2 k3 k4 k5
    unfold parsePlanningResponse
    rw [if_neg (by rw [h1]; simp)]
    rw [h2]
    simp only [h3]
    rw [h4]
    simp only [k1, k2, k3, k4, k5]
    rfl
  · intro env objective ht hd
    have hg : loopGuard env (initSession env objective) = true := by
      unfold loopGuard initSession
      simp [ht, MAX_ITERATIONS]
    have hit : planIteration env (initSession env objective)
        = { bumpSession env (initSession env objective) with
            isComplete := true
            finalResult := (planDecisionOf env (initSession env objective)).reasoning } := by
      unfold planIteration
      rw [if_pos hd]
    have hloop : planLoopFuel env MAX_ITERATIONS (initSession env objective)
        = planIteration env (initSession env objective) := by
      rw [show MAX_ITERATIONS = 9 + 1 from rfl]
      unfold planLoopFuel
      rw [if_pos hg]
      apply planLoopFuel_of_complete
      rw [hit]
    unfold executeIterativePlanning
    rw [hloop, hit]
    refine ⟨rfl, ?_, rfl⟩
    simp [bumpSession, initSession]

/-- Counterexample to C3 as stated: a reply whose content carries a
tool-call array but none of the four decision fields does not parse to
zero tool calls — the array is parsed (and the flags still default to
false). -/
theorem c3_failure_mapping_counterexample :
    jContainsKey innerToolCallsOnlyDoc (("should_continue").toList) = false
    ∧ jContainsKey innerToolCallsOnlyDoc (("objective_complete").toList) = false
    ∧ jContainsKey innerToolCallsOnlyDoc (("reasoning").toList) = false
    ∧ jContainsKey innerToolCallsOnlyDoc (("next_context").toList) = false
    ∧ demoDeserialize rawToolCallsOnly = Except.ok (envelopeDoc innerToolCallsOnly)
    ∧ demoDeserialize innerToolCallsOnly = Except.ok innerToolCallsOnlyDoc
    ∧ (parsePlanningResponse demoDeserialize rawToolCallsOnly).toolCalls.length = 1
    ∧ (parsePlanningResponse demoDeserialize rawToolCallsOnly).shouldContinue = false := by
  refine ⟨by decide, by decide, by decide, by decide, rfl, rfl, by decide, by decide⟩

/-- Witness for C3 on the concrete no-field reply and on a declining
first decision. -/
theorem c3_failure_mapping_witness :
    parsePlanningResponse demoDeserialize rawNoFields = emptyDecision
    ∧ (executeIterativePlanning decliningEnv (("survey the room").toList)).isComplete = true
    ∧ (executeIterativePlanning decliningEnv (("survey the room").toList)).iterationCount = 1
    ∧ (executeIterativePlanning decliningEnv (("survey the room").toList)).finalResult
        = ("nothing to do").toList := by
  constructor
  · exact c3_failure_mapping.2.2.2.2.1 demoDeserialize rawNoFields
      (envelopeDoc innerNoFields) (Json.obj []) innerNoFields
      (by decide) rfl (by decide) rfl
      (by decide) (by decide) (by decide) (by decide) (by decide)
  · exact c3_failure_mapping.2.2.2.2.2 decliningEnv (("survey the room").toList) rfl rfl

/-- The loop never drives the iteration count past the cap. -/
theorem planLoopFuel_count_le (env : PlanEnv) :
    ∀ (fuel : Nat) (s : PlanningSession), s.iterationCount ≤ MAX_ITERATIONS →
    (planLoopFuel env fuel s).iterationCount ≤ MAX_ITERATIONS := by
  intro fuel
  induction fuel with
  | zero => intro s h; exact h
  | succ n ih =>
      intro s h
      unfold planLoopFuel
      by_cases hg : loopGuard env s = true
      · rw [if_pos hg]
        apply ih
        rw [planIteration_iterationCount]
        have hlt : s.iterationCount < MAX_ITERATIONS := by
          unfold loopGuard at hg
          simp only [Bool.and_eq_true, decide_eq_true_eq] at hg
          exact hg.1.2
        omega
      · rw [if_neg hg]
        exact h

/-- Adding one unit of fuel beyond the remaining iteration budget does
not change the loop's result: this is the termination argument of the
source loop, whose guard bounds the count while every iteration
increments it. -/
theorem planLoopFuel_step_stable (env : PlanEnv) :
    ∀ (fuel : Nat) (s : PlanningSession), MAX_ITERATIONS ≤ s.iterationCount + fuel →
    planLoopFuel env (fuel + 1) s = planLoopFuel env fuel s := by
  intro fuel
  induction fuel with
  | zero =>
      intro s h
      have hg : loopGuard env s = false := by
        unfold loopGuard
        have : ¬ s.iterationCount < MAX_ITERATIONS := by omega
        simp [this]
      unfold planLoopFuel
      rw [if_neg (by rw [hg]; simp)]
  | succ n ih =>
      intro s h
      show planLoopFuel env (n + 1 + 1) s = planLoopFuel env (n + 1) s
      unfold planLoopFuel
      by_cases hg : loopGuard env s = true
      · rw [if_pos hg, if_pos hg]
        apply ih
        rw [planIteration_iterationCount]
        omega
      · rw [if_neg hg, if_neg hg]

/-- Any fuel of at least `MAX_ITERATIONS` computes the same final
session from a fresh start. -/
theorem planLoopFuel_fuel_irrelevant (env : PlanEnv) (s : PlanningSession)
    (hs : s.iterationCount = 0) :
    ∀ (f : Nat), MAX_ITERATIONS ≤ f →
    planLoopFuel env f s = planLoopFuel env MAX_ITERATIONS s := by
  intro f hf
  obtain ⟨k, rfl⟩ : ∃ k, f = MAX_ITERATIONS + k := ⟨f - MAX_ITERATIONS, by omega⟩
  induction k with
  | zero => rfl
  | succ n ih =>
      have hstep := planLoopFuel_step_stable env (MAX_ITERATIONS + n) s
        (by rw [hs]; unfold MAX_ITERATIONS; omega)
      calc planLoopFuel env (MAX_ITERATIONS + (n + 1)) s
          = planLoopFuel env (MAX_ITERATIONS + n + 1) s := rfl
        _ = planLoopFuel env (MAX_ITERATIONS + n) s := hstep
        _ = planLoopFuel env MAX_ITERATIONS s := ih (by omega)

/-- The post-loop tagging changes only `finalResult`. -/
theorem executeIterativePlanning_projections (env : PlanEnv) (objective : List Char) :
    (executeIterativePlanning env objective).iterationCount
      = (planLoopFuel env MAX_ITERATIONS (initSession env objective)).iterationCount
    ∧ (executeIterativePlanning env objective).isComplete
      = (planLoopFuel env MAX_ITERATIONS (initSession env objective)).isComplete := by
  constructor
  · simp only [executeIterativePlanning]
    split
    · rfl
    · split
      · rfl
      · rfl
  · simp only [executeIterativePlanning]
    split
    · rfl
    · split
      · rfl
      · rfl

/-- C1.  For every objective and every behaviour of the reasoning
service, the clock and the tools — including an adversarial service
that always asks to continue — the planning loop terminates: fuel
beyond `MAX_ITERATIONS` is irrelevant, the final iteration count never
exceeds `MAX_ITERATIONS` = 10, and every iteration increments the count
exactly once at its start. -/
theorem c1_loop_bounded :
    (∀ (env : PlanEnv) (objective : List Char),
      (executeIterativePlanning env objective).iterationCount ≤ MAX_ITERATIONS)
    ∧ (∀ (env : PlanEnv) (s : PlanningSession),
        (planIteration env s).iterationCount = s.iterationCount + 1)
    ∧ (∀ (env : PlanEnv) (objective : List Char) (f : Nat), MAX_ITERATIONS ≤ f →
        planLoopFuel env f (initSession env objective)
          = planLoopFuel env MAX_ITERATIONS (initSession env objective)) := by
  refine ⟨?_, planIteration_iterationCount, ?_⟩
  · intro env objective
    rw [(executeIterativePlanning_projections env objective).1]
    exact planLoopFuel_count_le env MAX_ITERATIONS (initSession env objective)
      (by show (0 : Nat) ≤ MAX_ITERATIONS; norm_num [MAX_ITERATIONS])
  · intro env objective f hf
    exact planLoopFuel_fuel_irrelevant env (initSession env objective) rfl f hf

/-- Witness for C1: with the adversarial reasoning service the loop
stops after exactly 10 iterations, and extra fuel is irrelevant. -/
theorem c1_loop_bounded_witness :
    planLoopFuel adversarialEnv 15 (initSession adversarialEnv (("explore").toList))
      = planLoopFuel adversarialEnv MAX_ITERATIONS
          (initSession adversarialEnv (("explore").toList))
    ∧ (executeIterativePlanning adversarialEnv (("explore").toList)).iterationCount
        ≤ MAX_ITERATIONS := by
  exact ⟨c1_loop_bounded.2.2 adversarialEnv (("explore").toList) 15 (by norm_num [MAX_ITERATIONS]),
    c1_loop_bounded.1 adversarialEnv (("explore").toList)⟩

/-- C6.  Final-result tagging: when the loop exits without
`isComplete`, the final result is the maximum-iterations message
exactly when the count reached `MAX_ITERATIONS` and the time-limit
message otherwise; whereas an iteration whose decision declines to
continue, or declares the objective complete, completes the session
with the decision's own reasoning as final result. -/
theorem c6_final_result_tagging :
    (∀ (env : PlanEnv) (objective : List Char),
      (executeIterativePlanning env objective).isComplete = false →
      (executeIterativePlanning env objective).finalResult
        = (if MAX_ITERATIONS ≤ (executeIterativePlanning env objective).iterationCount
           then maxIterationsMsg else timeLimitMsg))
    ∧ (∀ (env : PlanEnv) (s : PlanningSession),
        (planDecisionOf env s).shouldContinue = false →
        (planIteration env s).isComplete = true
        ∧ (planIteration env s).finalResult = (planDecisionOf env s).reasoning)
    ∧ (∀ (env : PlanEnv) (s : PlanningSession),
        (planDecisionOf env s).shouldContinue = true →
        (planDecisionOf env s).objectiveComplete = true →
        (planIteration env s).isComplete = true
        ∧ (planIteration env s).finalResult = (planDecisionOf env s).reasoning) := by
  refine ⟨?_, ?_, ?_⟩
  · intro env objective h
    rw [(executeIterativePlanning_projections env objective).2] at h
    rw [(executeIterativePlanning_projections env objective).1]
    simp only [executeIterativePlanning]
    rw [if_neg (by rw [h]; simp)]
    by_cases hn : MAX_ITERATIONS
        ≤ (planLoopFuel env MAX_ITERATIONS (initSession env objective)).iterationCount
    · rw [if_pos hn, if_pos hn]
    · rw [if_neg hn, if_neg hn]
  · intro env s h
    unfold planIteration
    rw [if_pos h]
    exact ⟨rfl, rfl⟩
  · intro env s h1 h2
    unfold planIteration
    rw [if_neg (by rw [h1]; simp)]
    rw [if_pos h2]
    exact ⟨rfl, rfl⟩

/-- Witness for C6: a time-budget exit is tagged with the time-limit
message, a declining decision completes with its reasoning, and a
completing decision does too. -/
theorem c6_final_result_tagging_witness :
    (executeIterativePlanning timedOutEnv (("explore").toList)).finalResult
      = (if MAX_ITERATIONS
            ≤ (executeIterativePlanning timedOutEnv (("explore").toList)).iterationCount
         then maxIterationsMsg else timeLimitMsg)
    ∧ (planIteration decliningEnv
        (initSession decliningEnv (("explore").toList))).finalResult
        = ("nothing to do").toList
    ∧ (planIteration completingEnv
        (initSession completingEnv (("explore").toList))).finalResult
        = ("objective done").toList := by
  refine ⟨?_, ?_, ?_⟩
  · exact c6_final_result_tagging.1 timedOutEnv (("explore").toList) (by decide)
  · exact (c6_final_result_tagging.2.1 decliningEnv
      (initSession decliningEnv (("explore").toList)) rfl).2
  · exact (c6_final_result_tagging.2.2 completingEnv
      (initSession completingEnv (("explore").toList)) rfl rfl).2


/-- Counterexample to C4 as stated: with the threshold objective, a
results string whose first reading after the `distance:` marker is 25,
above the 20cm threshold, still evaluates as achieved, because the
objective contains `until` and the results mention `within` and `cm`,
firing the evaluator fallback pattern for open-ended conditions. -/
theorem c4_goal_threshold_counterexample :
    thresholdOfObjective thresholdSession.objective = some 20
    ∧ readingOfResults (("within range: distance: 25 cm").toList) = some 25
    ∧ ¬ ((25 : Int) ≤ 20)
    ∧ evaluateGoalCompletion thresholdSession
        (("within range: distance: 25 cm").toList) = true := by
  refine ⟨by decide, by decide, by decide, by decide⟩

/-- C4 (amended).  With the threshold objective, results reading 15cm
evaluate as achieved and results reading 25cm (matching no other
completion pattern) do not; in general, when the objective yields a
threshold, the results yield a reading, and neither the until fallback
nor the stop/halt fallback fires, completion holds exactly when the
reading is at most the threshold. -/
theorem c4_goal_threshold :
    evaluateGoalCompletion thresholdSession (("distance: 15 cm").toList) = true
    ∧ evaluateGoalCompletion thresholdSession (("distance: 25 cm").toList) = false
    ∧ (∀ (s : PlanningSession) (results : List Char) (t r : Int),
        thresholdOfObjective s.objective = some t →
        readingOfResults results = some r →
        untilFallback s.objective results = false →
        stopFallback s.objective s.currentContext results = false →
        evaluateGoalCompletion s results = decide (r ≤ t)) := by
  refine ⟨by decide, by decide, ?_⟩
  intro s results t r ht hr hu hstop
  simp only [thresholdOfObjective] at ht
  simp only [readingOfResults] at hr
  simp only [untilFallback] at hu
  simp only [stopFallback] at hstop
  simp only [evaluateGoalCompletion]
  revert ht
  rcases hwi : indexOfChars (lowerChars s.objective) (("within").toList) with _ | wi <;>
    rcases hci : indexOfChars (lowerChars s.objective) (("cm").toList) with _ | ci <;>
      intro ht
  · exact absurd ht (by simp)
  · exact absurd ht (by simp)
  · exact absurd ht (by simp)
  · simp only [Option.ite_none_right_eq_some, Option.some.injEq] at ht
    obtain ⟨hlt, ht1⟩ := ht
    by_cases hg : ((indexOfChars (lowerChars results) (("distance:").toList)).isSome
        || (indexOfChars (lowerChars results) (("sonar distance:").toList)).isSome) = true
    · rw [if_pos hg] at hr
      revert hr
      rcases hdc : indexOfChars (lowerChars results) (("distance:").toList) with _ | k
      · rcases hsdc : indexOfChars (lowerChars results)
            (("sonar distance:").toList) with _ | k2 <;> intro hr
        · exact absurd hr (by simp)
        · revert hr
          rcases hfd : firstDigitRun ((lowerChars results).drop k2) with _ | run <;> intro hr
          · exact absurd hr (by simp [hfd])
          · simp only [hfd] at hr
            simp at hr
            subst hr
            subst ht1
            simp [hlt, hfd]
            intro hcontra
            exfalso
            rcases hcontra with ⟨⟨h1, h2⟩, h3⟩ | ⟨h4, h5⟩
            · have huntil : ((indexOfChars (lowerChars s.objective) (("until").toList)).isSome
                  && (indexOfChars (lowerChars results) (("within").toList)).isSome
                  && (indexOfChars (lowerChars results) (("cm").toList)).isSome) = true := by
                simp [h1, h2, h3]
              rw [huntil] at hu
              simp at hu
            · have hhalt : (((indexOfChars (lowerChars s.objective) (("stop").toList)).isSome
                  || (indexOfChars (lowerChars s.objective) (("halt").toList)).isSome)
                  && ((indexOfChars (lowerChars s.currentContext) (("stopped").toList)).isSome
                    || (indexOfChars (lowerChars results) (("stopped").toList)).isSome)) = true := by
                rcases h4 with h4 | h4 <;> rcases h5 with h5 | h5 <;> simp [h4, h5]
              rw [hhalt] at hstop
              simp at hstop
      · intro hr
        revert hr
        rcases hfd : firstDigitRun ((lowerChars results).drop k) with _ | run <;> intro hr
        · exact absurd hr (by simp [hfd])
        · simp only [hfd] at hr
          simp at hr
          subst hr
          subst ht1
          simp [hlt, hfd]
          intro hcontra
          exfalso
          rcases hcontra with ⟨⟨h1, h2⟩, h3⟩ | ⟨h4, h5⟩
          · have huntil : ((indexOfChars (lowerChars s.objective) (("until").toList)).isSome
                && (indexOfChars (lowerChars results) (("within").toList)).isSome
                && (indexOfChars (lowerChars results) (("cm").toList)).isSome) = true := by
              simp [h1, h2, h3]
            rw [huntil] at hu
            simp at hu
          · have hhalt : (((indexOfChars (lowerChars s.objective) (("stop").toList)).isSome
                || (indexOfChars (lowerChars s.objective) (("halt").toList)).isSome)
                && ((indexOfChars (lowerChars s.currentContext) (("stopped").toList)).isSome
                  || (indexOfChars (lowerChars results) (("stopped").toList)).isSome)) = true := by
              rcases h4 with h4 | h4 <;> rcases h5 with h5 | h5 <;> simp [h4, h5]
            rw [hhalt] at hstop
            simp at hstop
    · rw [if_neg hg] at hr
      cases hr

/-- Witness for C4 applying the general threshold clause at the 15cm
reading. -/
theorem c4_goal_threshold_witness :
    evaluateGoalCompletion thresholdSession (("distance: 15 cm").toList)
      = decide ((15 : Int) ≤ 20) := by
  exact c4_goal_threshold.2.2 thresholdSession (("distance: 15 cm").toList) 20 15
    (by decide) (by decide) (by decide) (by decide)

/-- C9.  Movement guard: for any params whose direction token is
forward, backward, left or right and whose magnitude is missing or
parses (via `toInt`) to zero or a negative value — which covers
non-numeric tokens, whose `toInt` is 0 — `moveCar` returns an error
string and performs no actuation; the stop direction ignores the
magnitude entirely and always stops the wheels. -/
theorem c9_move_validation :
    (∀ (params : List Char),
      lowerChars (splitAtFirstSpace (trimChars params)).1
        ∈ [("forward").toList, ("backward").toList, ("left").toList, ("right").toList] →
      ((splitAtFirstSpace (trimChars params)).2 = []
        ∨ atoiChars (splitAtFirstSpace (trimChars params)).2 ≤ 0) →
      (moveCar params).2 = []
      ∧ (("Error").toList).isPrefixOf (moveCar params).1 = true)
    ∧ (∀ (params : List Char),
        lowerChars (splitAtFirstSpace (trimChars params)).1 = ("stop").toList →
        moveCar params = (("Car stopped").toList, [Actuation.stopAll])) := by
  constructor
  · intro params hmem hbad
    have hp : ¬ trimChars params = [] := by
      intro hp0
      rw [hp0] at hmem
      exact absurd hmem (by decide)
    simp only [moveCar]
    rw [if_neg hp]
    simp only [List.mem_cons, List.mem_singleton, List.not_mem_nil, or_false] at hmem
    rcases hmem with h | h | h | h
    · rw [if_neg (show ¬ lowerChars (splitAtFirstSpace (trimChars params)).1
          = ("stop").toList by rw [h]; decide)]
      rw [if_pos h]
      rcases hbad with hv | hv
      · rw [if_pos hv]
        exact ⟨rfl, by decide⟩
      · by_cases hv0 : (splitAtFirstSpace (trimChars params)).2 = []
        · rw [if_pos hv0]
          exact ⟨rfl, by decide⟩
        · rw [if_neg hv0, if_pos hv]
          exact ⟨rfl, by decide⟩
    · rw [if_neg (show ¬ lowerChars (splitAtFirstSpace (trimChars params)).1
          = ("stop").toList by rw [h]; decide)]
      rw [if_neg (show ¬ lowerChars (splitAtFirstSpace (trimChars params)).1
          = ("forward").toList by rw [h]; decide)]
      rw [if_pos h]
      rcases hbad with hv | hv
      · rw [if_pos hv]
        exact ⟨rfl, by decide⟩
      · by_cases hv0 : (splitAtFirstSpace (trimChars params)).2 = []
        · rw [if_pos hv0]
          exact ⟨rfl, by decide⟩
        · rw [if_neg hv0, if_pos hv]
          exact ⟨rfl, by decide⟩
    · rw [if_neg (show ¬ lowerChars (splitAtFirstSpace (trimChars params)).1
          = ("stop").toList by rw [h]; decide)]
      rw [if_neg (show ¬ lowerChars (splitAtFirstSpace (trimChars params)).1
          = ("forward").toList by rw [h]; decide)]
      rw [if_neg (show ¬ lowerChars (splitAtFirstSpace (trimChars params)).1
          = ("backward").toList by rw [h]; decide)]
      rw [if_pos h]
      rcases hbad with hv | hv
      · rw [if_pos hv]
        exact ⟨rfl, by decide⟩
      · by_cases hv0 : (splitAtFirstSpace (trimChars params)).2 = []
        · rw [if_pos hv0]
          exact ⟨rfl, by decide⟩
        · rw [if_neg hv0, if_pos hv]
          exact ⟨rfl, by decide⟩
    · rw [if_neg (show ¬ lowerChars (splitAtFirstSpace (trimChars params)).1
          = ("stop").toList by rw [h]; decide)]
      rw [if_neg (show ¬ lowerChars (splitAtFirstSpace (trimChars params)).1
          = ("forward").toList by rw [h]; decide)]
      rw [if_neg (show ¬ lowerChars (splitAtFirstSpace (trimChars params)).1
          = ("backward").toList by rw [h]; decide)]
      rw [if_neg (show ¬ lowerChars (splitAtFirstSpace (trimChars params)).1
          = ("left").toList by rw [h]; decide)]
      rw [if_pos h]
      rcases hbad with hv | hv
      · rw [if_pos hv]
        exact ⟨rfl, by decide⟩
      · by_cases hv0 : (splitAtFirstSpace (trimChars params)).2 = []
        · rw [if_pos hv0]
          exact ⟨rfl, by decide⟩
        · rw [if_neg hv0, if_pos hv]
          exact ⟨rfl, by decide⟩
  · intro params h
    have hp : ¬ trimChars params = [] := by
      intro hp0
      rw [hp0] at h
      exact absurd h (by decide)
    simp only [moveCar]
    rw [if_neg hp]
    rw [if_pos h]

/-- Witness for C9 on a non-numeric duration, a negative duration, a
missing magnitude, and an upper-case stop with a stray magnitude. -/
theorem c9_move_validation_witness :
    (moveCar ((" forward abc").toList)).2 = []
    ∧ (("Error").toList).isPrefixOf (moveCar ((" forward abc").toList)).1 = true
    ∧ (moveCar (("backward -100").toList)).2 = []
    ∧ (moveCar (("left").toList)).2 = []
    ∧ moveCar (("STOP 99").toList) = (("Car stopped").toList, [Actuation.stopAll]) := by
  refine ⟨(c9_move_validation.1 ((" forward abc").toList) (by decide)
      (Or.inr (by decide))).1,
    (c9_move_validation.1 ((" forward abc").toList) (by decide) (Or.inr (by decide))).2,
    (c9_move_validation.1 (("backward -100").toList) (by decide) (Or.inr (by decide))).1,
    (c9_move_validation.1 (("left").toList) (by decide) (Or.inl (by decide))).1,
    c9_move_validation.2 (("STOP 99").toList) (by decide)⟩
